import Mathlib

set_option maxHeartbeats 1000000
set_option maxRecDepth 10000

/-!
Shallow embedding of the crawl-and-staged-refresh pipeline of `routes/chat.js`
(`scrapeAndSaveSite`, `scrapeGitLabData`, `backgroundRefresh`, and the
`POST /refresh-data` handler), together with the MongoDB document store they
operate on (`GitLabData` documents keyed by `source`).

Modelling decisions:
* JavaScript strings are Lean `String`; `String.prototype.startsWith` is the
  character-list prefix test `strStartsWith`.
* The MongoDB collection is a function from the `source` key to an optional
  document.  `findOneAndUpdate` with `upsert: true` is `setKey`, `deleteMany`
  on the two staging keys is `delStaging`, and `session.withTransaction` is a
  single all-or-nothing store update (`swapEffect`).
* Any database operation can reject; a failure oracle `Env.failAt`, indexed by
  the number of database operations performed so far, decides which ones do.
* `axios.get` outcomes come from `Env.web`, indexed by URL and by the attempt
  number for that URL.  The error classification `isHangup || isNetwork`
  (ECONNRESET / socket hang up / ECONNABORTED / ENOTFOUND / EAI_AGAIN)
  is modelled by the `transient` flag of a failed outcome.
* cheerio extraction is abstracted: a fetched page carries the already
  stripped-and-collapsed body text, the trimmed `<title>` and first `<h1>`
  texts, and the raw `href` attributes in document order.  `url.resolve` is an
  abstract `Env.resolve` (`none` models the `catch`-ed resolution failure).
* Timestamps (`new Date()`) are `Env.now : Nat`; effectful computations are
  state-passing over the store and the operation counter, with `Except` for
  thrown errors (the store survives a throw, as in JavaScript).
-/

/-- Model of JavaScript `String.prototype.startsWith`. -/
def strStartsWith (s p : String) : Bool :=
  p.data.isPrefixOf s.data

/-- Model of JavaScript `text.substring(0, n)`: the first `n` characters. -/
def strTake (s : String) (n : Nat) : String :=
  String.mk (s.data.take n)

/-- One crawled page as pushed into `currentBatch`:
`{ url, title, text: text.substring(0, 5000) }`. -/
structure PageRecord where
  url : String
  title : String
  text : String
deriving DecidableEq

/-- The JSON payload stored in a `GitLabData` document's `content` field:
`{ title, url, pages }`. -/
structure SiteData where
  title : String
  url : String
  pages : List PageRecord
deriving DecidableEq

/-- The `content` string of a stored document: either a JSON serialization of
`SiteData` (written by the pipeline) or some other string (e.g. the
`last_conversation` payload, or malformed JSON). -/
inductive DocContent where
  | site (d : SiteData)
  | other (raw : String)
deriving DecidableEq

/-- A `GitLabData` document: `content` plus the `scrapedAt` timestamp. -/
structure Doc where
  content : DocContent
  scrapedAt : Nat
deriving DecidableEq

/-- The MongoDB collection, keyed by the unique `source` field. -/
def Store : Type :=
  String → Option Doc

/-- Model of `findOneAndUpdate({source: k}, ..., {upsert: true})`. -/
def setKey (s : Store) (k : String) (d : Doc) : Store :=
  fun q => if q = k then some d else s q

/-- Model of `deleteMany({ source: { $in: ['handbook_staging', 'direction_staging'] } })`. -/
def delStaging (s : Store) : Store :=
  fun q => if q = "handbook_staging" ∨ q = "direction_staging" then none else s q

/-- What cheerio extraction yields from a fetched response: trimmed `<title>`
text, trimmed first-`<h1>` text, the stripped and whitespace-collapsed body
text, and the `href` attributes of `a[href]` elements in document order. -/
structure PageData where
  titleText : String
  h1Text : String
  text : String
  hrefs : List String
deriving DecidableEq

/-- Outcome of one `axios.get` attempt.  `transient` models
`isHangup || isNetwork` for the thrown error. -/
inductive FetchOutcome where
  | ok (page : PageData)
  | err (transient : Bool) (msg : String)
deriving DecidableEq

/-- The execution environment: the network, URL resolution, the database
failure oracle, and the clock. -/
structure Env where
  web : String → Nat → FetchOutcome
  resolve : String → String → Option String
  failAt : Nat → Bool
  now : Nat

abbrev Err := String

/-- Effectful computations: state-passing over the store and the database
operation counter, with thrown errors.  The store component is returned even
on a throw, since a JavaScript exception does not roll back prior writes. -/
def M (α : Type) : Type :=
  Store → Nat → Except Err α × Store × Nat

def M.pure {α : Type} (a : α) : M α :=
  fun s c => (Except.ok a, s, c)

def M.bind {α β : Type} (m : M α) (f : α → M β) : M β :=
  fun s c =>
    match m s c with
    | (Except.ok a, s', c') => f a s' c'
    | (Except.error e, s', c') => (Except.error e, s', c')

def M.throw {α : Type} (e : Err) : M α :=
  fun s c => (Except.error e, s, c)

/-- One awaited database operation: consults the failure oracle, and on
success applies the pure effect `g` to the store. -/
def dbOp {α : Type} (env : Env) (g : Store → α × Store) : M α :=
  fun s c =>
    if env.failAt c then (Except.error "db error", s, c + 1)
    else (Except.ok (g s).1, (g s).2, c + 1)

/-- Model of `GitLabData.findOne({ source: key })`. -/
def dbFindOne (env : Env) (key : String) : M (Option Doc) :=
  dbOp env (fun s => (s key, s))

/-- Model of `GitLabData.findOneAndUpdate({source: key}, {content, scrapedAt: new Date()}, {upsert: true})`. -/
def dbUpsert (env : Env) (key : String) (content : DocContent) : M Unit :=
  dbOp env (fun s => ((), setKey s key ⟨content, env.now⟩))

/-- The retry loop of `scrapeAndSaveSite`
(`while (attempt < 3 && !success) { try { ... axios.get(url) ... } catch ... }`):
on a thrown error, `attempt++`; retry only while the error is transient and
`attempt < 3`.  Returns the response (or `none`) and the total number of
`axios.get` calls performed.  The fuel `3` covers every reachable path. -/
def retryGo (web : String → Nat → FetchOutcome) (url : String) :
    Nat → Nat → Option PageData × Nat
  | 0, attempt => (none, attempt)
  | Nat.succ f, attempt =>
    match web url attempt with
    | FetchOutcome.ok p => (some p, attempt + 1)
    | FetchOutcome.err t _ =>
      if t ∧ attempt + 1 < 3 then retryGo web url f (attempt + 1)
      else (none, attempt + 1)

/-- The whole fetch-with-retry block, starting at `attempt = 0`. -/
def fetchWithRetry (web : String → Nat → FetchOutcome) (url : String) :
    Option PageData × Nat :=
  retryGo web url 3 0

/-- Title selection: `$('title').text().trim() || $('h1').first().text().trim() || 'Untitled'`. -/
def pageTitle (p : PageData) : String :=
  if p.titleText ≠ "" then p.titleText
  else if p.h1Text ≠ "" then p.h1Text
  else "Untitled"

/-- Href filter: `href && !href.startsWith('mailto') && !href.startsWith('#') && !href.startsWith('javascript:')`. -/
def hrefAllowed (href : String) : Bool :=
  href ≠ "" && !strStartsWith href "mailto" && !strStartsWith href "#" &&
    !strStartsWith href "javascript:"

/-- The link-collection pass over `$('a[href]')`: resolve each allowed href
against the page URL, keep it when the absolute form starts with the root URL
and is not yet visited, then `slice(0, 5)`. -/
def extractLinks (resolve : String → String → Option String) (rootUrl pageUrl : String)
    (visited : List String) (hrefs : List String) : List String :=
  (hrefs.filterMap (fun href =>
    if hrefAllowed href then
      match resolve pageUrl href with
      | some abs =>
        if strStartsWith abs rootUrl = true ∧ abs ∉ visited then some abs else none
      | none => none
    else none)).take 5

/-- The crawl's working state: `visitedUrls`, `queue`, `currentBatch`,
`totalPagesSaved`. -/
structure CrawlSt where
  visited : List String
  queue : List String
  batch : List PageRecord
  total : Nat
deriving DecidableEq

/-- The fresh document payload `{ title: '', url: rootUrl, pages: [] }`. -/
def freshSite (rootUrl : String) : SiteData :=
  ⟨"", rootUrl, []⟩

/-- The in-loop batch save: read the existing document (falling back to a
fresh payload when absent or unparseable), append the batch to its `pages`,
and upsert the result. -/
def flushBatch (env : Env) (rootUrl source : String) (batch : List PageRecord) : M Unit :=
  M.bind (dbFindOne env source) (fun doc =>
    let existing : SiteData :=
      match doc with
      | some d =>
        match d.content with
        | DocContent.site sd => sd
        | DocContent.other _ => freshSite rootUrl
      | none => freshSite rootUrl
    dbUpsert env source (DocContent.site { existing with pages := existing.pages ++ batch }))

/-- The final batch save after the loop.  Unlike the in-loop save, its
`JSON.parse(existingDoc.content)` is not wrapped in a `try`, so an
unparseable document throws. -/
def flushFinal (env : Env) (rootUrl source : String) (batch : List PageRecord) : M Unit :=
  M.bind (dbFindOne env source) (fun doc =>
    match doc with
    | some d =>
      match d.content with
      | DocContent.site sd =>
        dbUpsert env source (DocContent.site { sd with pages := sd.pages ++ batch })
      | DocContent.other _ => M.throw "json parse error"
    | none =>
      dbUpsert env source
        (DocContent.site { freshSite rootUrl with
          pages := (freshSite rootUrl).pages ++ batch }))

/-- Processing of a successfully fetched page inside one crawl iteration:
the conditional batch push and save (`text.length > 100`, batch-size or
ceiling reached), then the link enqueueing against the updated totals. -/
def processPage (env : Env) (rootUrl source : String) (maxPages batchSize : Nat)
    (st : CrawlSt) (url : String) (rest : List String) (page : PageData) : M CrawlSt :=
  M.bind
    (if page.text.length > 100 then
      let batch' := st.batch ++
        [{ url := url, title := pageTitle page, text := strTake page.text 5000 }]
      if batch'.length ≥ batchSize ∨ st.total + batch'.length ≥ maxPages then
        M.bind (flushBatch env rootUrl source batch')
          (fun _ => M.pure (st.total + batch'.length, ([] : List PageRecord)))
      else M.pure (st.total, batch')
    else M.pure (st.total, st.batch))
    (fun tb =>
      let queue' :=
        if tb.1 < maxPages then
          rest ++ extractLinks env.resolve rootUrl url (url :: st.visited) page.hrefs
        else rest
      M.pure { visited := url :: st.visited, queue := queue', batch := tb.2, total := tb.1 })

/-- One iteration of the `while` loop of `scrapeAndSaveSite`, processing the
dequeued `url` (with `rest` the remainder of the queue): visited check, fetch
with retry, extraction, conditional batch save, and link enqueueing. -/
def crawlStep (env : Env) (rootUrl source : String) (maxPages batchSize : Nat)
    (st : CrawlSt) (url : String) (rest : List String) : M CrawlSt :=
  if url ∈ st.visited then M.pure { st with queue := rest }
  else
    match (fetchWithRetry env.web url).1 with
    | none => M.pure { st with queue := rest, visited := url :: st.visited }
    | some page => processPage env rootUrl source maxPages batchSize st url rest page

/-- The `while (queue.length > 0 && totalPagesSaved < maxPages)` loop,
expressed with explicit fuel. -/
def crawlLoop (env : Env) (rootUrl source : String) (maxPages batchSize : Nat) :
    Nat → CrawlSt → M CrawlSt
  | 0, st => M.pure st
  | Nat.succ fuel, st =>
    match st.queue with
    | [] => M.pure st
    | url :: rest =>
      if st.total < maxPages then
        M.bind (crawlStep env rootUrl source maxPages batchSize st url rest)
          (crawlLoop env rootUrl source maxPages batchSize fuel)
      else M.pure st

/-- The function `scrapeAndSaveSite(rootUrl, source, maxPages, batchSize)`: initialize an
empty document for `source`, run the crawl loop from the root URL, then save
any remaining batch. -/
def scrapeAndSaveSite (env : Env) (rootUrl source : String)
    (maxPages batchSize fuel : Nat) : M Unit :=
  M.bind (dbUpsert env source (DocContent.site (freshSite rootUrl))) (fun _ =>
    M.bind
      (crawlLoop env rootUrl source maxPages batchSize fuel
        { visited := [], queue := [rootUrl], batch := [], total := 0 })
      (fun st =>
        if st.batch.isEmpty then M.pure () else flushFinal env rootUrl source st.batch))

/-- The body of the `session.withTransaction` callback as a pure store
update: read both staging documents, copy each existing one over the
corresponding production document (upsert, with a fresh `scrapedAt`), then
delete the staging documents. -/
def swapEffect (now : Nat) (s : Store) : Store :=
  let hs := s "handbook_staging"
  let ds := s "direction_staging"
  let s1 :=
    match hs with
    | some d => setKey s "handbook" ⟨d.content, now⟩
    | none => s
  let s2 :=
    match ds with
    | some d => setKey s1 "direction" ⟨d.content, now⟩
    | none => s1
  delStaging s2

def handbookUrl : String := "https://handbook.gitlab.com"

def directionUrl : String := "https://about.gitlab.com/direction/"

/-- The body of the `try` block of `scrapeGitLabData`: crawl both sources
into their staging documents (JavaScript default arguments `maxPages = 50`,
`batchSize = 10`), then perform the transactional staging-to-production
swap. -/
def scrapeBody (env : Env) (fuel : Nat) : M Unit :=
  M.bind (scrapeAndSaveSite env handbookUrl "handbook_staging" 50 10 fuel) (fun _ =>
    M.bind (scrapeAndSaveSite env directionUrl "direction_staging" 50 10 fuel) (fun _ =>
      dbOp env (fun st => ((), swapEffect env.now st))))

/-- The function `scrapeGitLabData()`: run the staged crawl-and-swap; on any error, delete
the staging documents (swallowing a failure of the cleanup itself) and
rethrow. -/
def scrapeGitLabData (env : Env) (fuel : Nat) : M Unit :=
  fun s c =>
    match scrapeBody env fuel s c with
    | (Except.ok _, s', c') => (Except.ok (), s', c')
    | (Except.error e, s', c') =>
      let cleanup := dbOp env (fun st => ((), delStaging st)) s' c'
      (Except.error e, cleanup.2)

/-- The module-level `refreshStatus` object. -/
structure RefreshStatus where
  isRefreshing : Bool
  lastRefreshAttempt : Option Nat
  lastRefreshError : Option String
  startTime : Option Nat
deriving DecidableEq

/-- The value returned by `backgroundRefresh()`. -/
structure RefreshResult where
  success : Bool
  message : String
deriving DecidableEq

/-- The function `backgroundRefresh()`: reject when a refresh is in progress; otherwise
set the status fields, run `scrapeGitLabData`, record `lastRefreshError` on
failure, and always clear `isRefreshing` in the `finally`. -/
def backgroundRefresh (env : Env) (fuel : Nat) (rs : RefreshStatus) (s : Store)
    (c : Nat) : RefreshResult × RefreshStatus × Store × Nat :=
  if rs.isRefreshing then
    ({ success := false, message := "Refresh already in progress" }, rs, s, c)
  else
    let rs1 : RefreshStatus :=
      { isRefreshing := true, lastRefreshAttempt := some env.now,
        lastRefreshError := none, startTime := some env.now }
    match scrapeGitLabData env fuel s c with
    | (Except.ok _, s', c') =>
      ({ success := true, message := "Refresh completed successfully" },
        { rs1 with isRefreshing := false }, s', c')
    | (Except.error e, s', c') =>
      ({ success := false, message := "Refresh failed: " ++ e },
        { rs1 with isRefreshing := false, lastRefreshError := some e }, s', c')

/-- The JSON body produced by the `POST /refresh-data` handler. -/
structure RefreshResponse where
  message : String
  isRefreshing : Bool
  lastRefreshAttempt : Option Nat
  startTime : Option Nat
deriving DecidableEq

/-- The `POST /refresh-data` handler: `await backgroundRefresh()`, then
respond with a message chosen from the refresh's result and the
current `refreshStatus` fields. -/
def refreshDataHandler (env : Env) (fuel : Nat) (rs : RefreshStatus) (s : Store)
    (c : Nat) : RefreshResponse × RefreshStatus × Store × Nat :=
  let r := backgroundRefresh env fuel rs s c
  ({ message :=
      if r.1.success then "GitLab data refresh started in background" else r.1.message,
     isRefreshing := r.2.1.isRefreshing,
     lastRefreshAttempt := r.2.1.lastRefreshAttempt,
     startTime := r.2.1.startTime }, r.2)

/-- The pages carried by a document content (`[]` for non-site content). -/
def pagesOf : DocContent → List PageRecord
  | DocContent.site sd => sd.pages
  | DocContent.other _ => []

/-- The four store keys a refresh may read or write. -/
def refreshKeys : List String :=
  ["handbook", "direction", "handbook_staging", "direction_staging"]

deriving instance DecidableEq for Except

/-! ### Generic helper lemmas -/

theorem isPrefixOf_self {α : Type} [BEq α] [LawfulBEq α] (l : List α) :
    l.isPrefixOf l = true := by
  induction l with
  | nil => rfl
  | cons a l ih => simp [List.isPrefixOf, ih]

theorem strStartsWith_self (s : String) : strStartsWith s s = true :=
  isPrefixOf_self s.data

theorem extractLinks_mem {resolve : String → String → Option String}
    {rootUrl pageUrl : String} {visited : List String} {hrefs : List String} {l : String}
    (h : l ∈ extractLinks resolve rootUrl pageUrl visited hrefs) :
    strStartsWith l rootUrl = true ∧ l ∉ visited := by
  have h' := List.mem_of_mem_take h
  rw [List.mem_filterMap] at h'
  obtain ⟨href, _hm, hf⟩ := h'
  by_cases hall : hrefAllowed href = true
  · simp only [if_pos hall] at hf
    cases hr : resolve pageUrl href with
    | none => simp [hr] at hf
    | some abs =>
      simp only [hr] at hf
      by_cases hc : strStartsWith abs rootUrl = true ∧ abs ∉ visited
      · simp only [if_pos hc] at hf
        cases hf
        exact hc
      · simp [if_neg hc] at hf
  · simp [hall] at hf

theorem extractLinks_length_le (resolve : String → String → Option String)
    (rootUrl pageUrl : String) (visited : List String) (hrefs : List String) :
    (extractLinks resolve rootUrl pageUrl visited hrefs).length ≤ 5 := by
  simp only [extractLinks]
  exact List.length_take_le 5 _

/-! ### Concrete fixtures used by witnesses and counterexamples -/

def storeEmpty : Store := fun _ => none

def longText : String := String.mk (List.replicate 120 'a')

def rs0 : RefreshStatus := ⟨false, none, none, none⟩

def rsBusy : RefreshStatus := ⟨true, some 3, some "previous failure", some 2⟩

/-- Every fetch fails with a transient (connection-reset style) error. -/
def envAllTransient : Env :=
  { web := fun _ _ => FetchOutcome.err true "read ECONNRESET",
    resolve := fun _ href => some href,
    failAt := fun _ => false, now := 100 }

/-- Every fetch fails with a permanent error. -/
def envAllPermanent : Env :=
  { web := fun _ _ => FetchOutcome.err false "Request failed with status code 500",
    resolve := fun _ href => some href,
    failAt := fun _ => false, now := 100 }

/-! ### C3: concurrent trigger rejection -/

/-- C3: if `refreshStatus.isRefreshing` is true when `backgroundRefresh` is
invoked, it returns the already-running rejection immediately and mutates
nothing: the status record, the store, and the operation counter are returned
exactly as they were, and no crawl (hence no fetch or store operation) runs. -/
theorem backgroundRefresh_already_running (env : Env) (fuel : Nat) (rs : RefreshStatus)
    (s : Store) (c : Nat) (h : rs.isRefreshing = true) :
    backgroundRefresh env fuel rs s c =
      ({ success := false, message := "Refresh already in progress" }, rs, s, c) := by
  simp [backgroundRefresh, h]

/-- Witness: the rejection at a concrete busy status, store and environment. -/
theorem backgroundRefresh_already_running_witness :
    backgroundRefresh envAllTransient 5 rsBusy storeEmpty 0 =
      ({ success := false, message := "Refresh already in progress" }, rsBusy, storeEmpty, 0) :=
  backgroundRefresh_already_running envAllTransient 5 rsBusy storeEmpty 0 rfl

/-! ### C4: retry budget -/

theorem fetchWithRetry_all_transient (web : String → Nat → FetchOutcome) (url : String)
    (msgs : Nat → String) (h : ∀ k, web url k = FetchOutcome.err true (msgs k)) :
    fetchWithRetry web url = (none, 3) := by
  simp [fetchWithRetry, retryGo, h]

theorem fetchWithRetry_permanent (web : String → Nat → FetchOutcome) (url : String)
    (pmsg : String) (h : web url 0 = FetchOutcome.err false pmsg) :
    fetchWithRetry web url = (none, 1) := by
  simp [fetchWithRetry, retryGo, h]

theorem crawlLoop_failed_fetch (env : Env) (rootUrl source : String)
    (maxPages batchSize fuel : Nat) (st : CrawlSt) (url : String) (rest : List String)
    (hq : st.queue = url :: rest) (hnv : url ∉ st.visited) (hmax : st.total < maxPages)
    (hfail : (fetchWithRetry env.web url).1 = none) :
    crawlLoop env rootUrl source maxPages batchSize (fuel + 1) st =
      crawlLoop env rootUrl source maxPages batchSize fuel
        { st with queue := rest, visited := url :: st.visited } := by
  funext s c
  simp [crawlLoop, hq, hmax, crawlStep, hnv, hfail, M.bind, M.pure]

/-- C4: a URL whose fetch always raises a transient error is attempted exactly
3 times, and a URL whose first fetch raises a permanent error exactly once;
in both cases no response is obtained (a page-level failure) and the crawl
loop simply continues with the remaining frontier, the URL marked visited,
with the batch, the saved-page count and the store untouched. -/
theorem retry_budget (envT envP : Env) (rootUrl source : String)
    (maxPages batchSize fuel : Nat) (stT stP : CrawlSt) (urlT urlP : String)
    (restT restP : List String) (msgs : Nat → String) (pmsg : String)
    (hT : ∀ k, envT.web urlT k = FetchOutcome.err true (msgs k))
    (hP : envP.web urlP 0 = FetchOutcome.err false pmsg)
    (hqT : stT.queue = urlT :: restT) (hnvT : urlT ∉ stT.visited) (hmT : stT.total < maxPages)
    (hqP : stP.queue = urlP :: restP) (hnvP : urlP ∉ stP.visited) (hmP : stP.total < maxPages) :
    fetchWithRetry envT.web urlT = (none, 3) ∧
    fetchWithRetry envP.web urlP = (none, 1) ∧
    crawlLoop envT rootUrl source maxPages batchSize (fuel + 1) stT =
      crawlLoop envT rootUrl source maxPages batchSize fuel
        { stT with queue := restT, visited := urlT :: stT.visited } ∧
    crawlLoop envP rootUrl source maxPages batchSize (fuel + 1) stP =
      crawlLoop envP rootUrl source maxPages batchSize fuel
        { stP with queue := restP, visited := urlP :: stP.visited } := by
  have h1 := fetchWithRetry_all_transient envT.web urlT msgs hT
  have h2 := fetchWithRetry_permanent envP.web urlP pmsg hP
  exact ⟨h1, h2,
    crawlLoop_failed_fetch envT rootUrl source maxPages batchSize fuel stT urlT restT
      hqT hnvT hmT (by rw [h1]),
    crawlLoop_failed_fetch envP rootUrl source maxPages batchSize fuel stP urlP restP
      hqP hnvP hmP (by rw [h2])⟩

/-- Witness: the retry budget at concrete transient and permanent environments. -/
theorem retry_budget_witness :
    fetchWithRetry envAllTransient.web "https://r" = (none, 3) ∧
    fetchWithRetry envAllPermanent.web "https://r" = (none, 1) ∧
    crawlLoop envAllTransient "https://r" "src" 50 10 (2 + 1) ⟨[], ["https://r"], [], 0⟩ =
      crawlLoop envAllTransient "https://r" "src" 50 10 2
        { visited := ["https://r"], queue := [], batch := [], total := 0 } ∧
    crawlLoop envAllPermanent "https://r" "src" 50 10 (2 + 1) ⟨[], ["https://r"], [], 0⟩ =
      crawlLoop envAllPermanent "https://r" "src" 50 10 2
        { visited := ["https://r"], queue := [], batch := [], total := 0 } :=
  retry_budget envAllTransient envAllPermanent "https://r" "src" 50 10 2
    ⟨[], ["https://r"], [], 0⟩ ⟨[], ["https://r"], [], 0⟩ "https://r" "https://r" [] []
    (fun _ => "read ECONNRESET") "Request failed with status code 500"
    (fun _ => rfl) rfl rfl (by decide) (by decide) rfl (by decide) (by decide)

/-! ### Structure lemmas for the flush operations and the crawl step -/

/-- The pages previously stored in an optional document. -/
def prevPages : Option Doc → List PageRecord
  | some d => pagesOf d.content
  | none => []

/-- The document payload written by a batch save: the existing payload (or a
fresh one) with the batch appended to its pages. -/
def mergedSite (rootUrl : String) (o : Option Doc) (batch : List PageRecord) : SiteData :=
  let existing : SiteData :=
    match o with
    | some d =>
      match d.content with
      | DocContent.site sd => sd
      | DocContent.other _ => freshSite rootUrl
    | none => freshSite rootUrl
  { existing with pages := existing.pages ++ batch }

theorem mergedSite_pages (rootUrl : String) (o : Option Doc) (batch : List PageRecord) :
    (mergedSite rootUrl o batch).pages = prevPages o ++ batch := by
  cases o with
  | none => simp [mergedSite, prevPages, freshSite]
  | some d =>
    cases hd : d.content with
    | site sd => simp [mergedSite, prevPages, pagesOf, hd]
    | other raw => simp [mergedSite, prevPages, pagesOf, hd, freshSite]

theorem flushBatch_eq (env : Env) (rootUrl source : String) (batch : List PageRecord)
    (s : Store) (c : Nat) :
    flushBatch env rootUrl source batch s c =
      if env.failAt c then (Except.error "db error", s, c + 1)
      else if env.failAt (c + 1) then (Except.error "db error", s, c + 2)
      else (Except.ok (),
        setKey s source ⟨DocContent.site (mergedSite rootUrl (s source) batch), env.now⟩,
        c + 2) := by
  unfold flushBatch dbFindOne dbUpsert dbOp M.bind mergedSite
  cases h0 : env.failAt c with
  | true => simp [h0]
  | false =>
    cases h1 : env.failAt (c + 1) with
    | true => simp [h0, h1]
    | false => simp [h0, h1]

theorem flushFinal_eq (env : Env) (rootUrl source : String) (batch : List PageRecord)
    (s : Store) (c : Nat) :
    flushFinal env rootUrl source batch s c =
      if env.failAt c then (Except.error "db error", s, c + 1)
      else
        match s source with
        | some d =>
          match d.content with
          | DocContent.site sd =>
            if env.failAt (c + 1) then (Except.error "db error", s, c + 2)
            else (Except.ok (),
              setKey s source
                ⟨DocContent.site { sd with pages := sd.pages ++ batch }, env.now⟩, c + 2)
          | DocContent.other _ => (Except.error "json parse error", s, c + 1)
        | none =>
          if env.failAt (c + 1) then (Except.error "db error", s, c + 2)
          else (Except.ok (),
            setKey s source
              ⟨DocContent.site { freshSite rootUrl with
                pages := (freshSite rootUrl).pages ++ batch }, env.now⟩, c + 2) := by
  unfold flushFinal dbFindOne dbUpsert dbOp M.bind M.throw
  cases h0 : env.failAt c with
  | true => simp [h0]
  | false =>
    cases hs : s source with
    | none =>
      cases h1 : env.failAt (c + 1) with
      | true => simp [h0, h1, hs]
      | false => simp [h0, h1, hs]
    | some d =>
      cases hd : d.content with
      | site sd =>
        cases h1 : env.failAt (c + 1) with
        | true => simp [h0, h1, hs, hd]
        | false => simp [h0, h1, hs, hd]
      | other raw => simp [h0, hs, hd]

theorem flushBatch_ok (env : Env) (rootUrl source : String) (batch : List PageRecord)
    (s : Store) (c : Nat) (u : Unit) (s' : Store) (c' : Nat)
    (hres : flushBatch env rootUrl source batch s c = (Except.ok u, s', c')) :
    s' = setKey s source ⟨DocContent.site (mergedSite rootUrl (s source) batch), env.now⟩ := by
  rw [flushBatch_eq] at hres
  by_cases h0 : env.failAt c = true
  · rw [if_pos h0] at hres; exact absurd hres (by simp)
  · rw [if_neg h0] at hres
    by_cases h1 : env.failAt (c + 1) = true
    · rw [if_pos h1] at hres; exact absurd hres (by simp)
    · rw [if_neg h1] at hres
      simp only [Prod.mk.injEq] at hres
      exact hres.2.1.symm

theorem flushFinal_ok (env : Env) (rootUrl source : String) (batch : List PageRecord)
    (s : Store) (c : Nat) (u : Unit) (s' : Store) (c' : Nat)
    (hres : flushFinal env rootUrl source batch s c = (Except.ok u, s', c')) :
    ∃ sd : SiteData, sd.pages = prevPages (s source) ++ batch ∧
      s' = setKey s source ⟨DocContent.site sd, env.now⟩ := by
  rw [flushFinal_eq] at hres
  by_cases h0 : env.failAt c = true
  · rw [if_pos h0] at hres; exact absurd hres (by simp)
  · rw [if_neg h0] at hres
    cases hs : s source with
    | none =>
      rw [hs] at hres
      by_cases h1 : env.failAt (c + 1) = true
      · rw [if_pos h1] at hres; exact absurd hres (by simp)
      · rw [if_neg h1] at hres
        simp only [Prod.mk.injEq] at hres
        exact ⟨_, by simp [prevPages, freshSite], hres.2.1.symm⟩
    | some d =>
      rw [hs] at hres
      cases hd : d.content with
      | site sd =>
        simp only [hd] at hres
        by_cases h1 : env.failAt (c + 1) = true
        · rw [if_pos h1] at hres; exact absurd hres (by simp)
        · rw [if_neg h1] at hres
          simp only [Prod.mk.injEq] at hres
          exact ⟨_, by simp [prevPages, pagesOf, hd], hres.2.1.symm⟩
      | other raw => simp [hd] at hres

theorem ite_append {P : Prop} [Decidable P] (rest L : List String) :
    (if P then rest ++ L else rest) = rest ++ (if P then L else []) := by
  by_cases h : P <;> simp [h]

theorem crawlStep_ok_cases (env : Env) (rootUrl source : String) (maxPages batchSize : Nat)
    (st : CrawlSt) (url : String) (rest : List String) (s : Store) (c : Nat)
    (st' : CrawlSt) (s' : Store) (c' : Nat)
    (hres : crawlStep env rootUrl source maxPages batchSize st url rest s c =
      (Except.ok st', s', c')) :
    (url ∈ st.visited ∧ st' = { st with queue := rest } ∧ s' = s ∧ c' = c) ∨
    (url ∉ st.visited ∧ (fetchWithRetry env.web url).1 = none ∧
      st' = { st with queue := rest, visited := url :: st.visited } ∧ s' = s ∧ c' = c) ∨
    (∃ page, url ∉ st.visited ∧ (fetchWithRetry env.web url).1 = some page ∧
      st'.visited = url :: st.visited ∧
      st'.queue = rest ++ (if st'.total < maxPages then
        extractLinks env.resolve rootUrl url (url :: st.visited) page.hrefs else []) ∧
      ((¬ page.text.length > 100 ∧ st'.batch = st.batch ∧ st'.total = st.total ∧
          s' = s ∧ c' = c) ∨
       (page.text.length > 100 ∧
        ∃ batch', batch' = st.batch ++ [(⟨url, pageTitle page, strTake page.text 5000⟩ : PageRecord)] ∧
        ((¬ (batch'.length ≥ batchSize ∨ st.total + batch'.length ≥ maxPages) ∧
            st'.batch = batch' ∧ st'.total = st.total ∧ s' = s ∧ c' = c) ∨
         ((batch'.length ≥ batchSize ∨ st.total + batch'.length ≥ maxPages) ∧
            st'.batch = [] ∧ st'.total = st.total + batch'.length ∧
            s' = setKey s source
              ⟨DocContent.site (mergedSite rootUrl (s source) batch'), env.now⟩))))) := by
  unfold crawlStep at hres
  by_cases hv : url ∈ st.visited
  · rw [if_pos hv] at hres
    simp only [M.pure, Prod.mk.injEq, Except.ok.injEq] at hres
    exact Or.inl ⟨hv, hres.1.symm, hres.2.1.symm, hres.2.2.symm⟩
  · rw [if_neg hv] at hres
    cases hf : (fetchWithRetry env.web url).1 with
    | none =>
      simp only [hf, M.pure, Prod.mk.injEq, Except.ok.injEq] at hres
      exact Or.inr (Or.inl ⟨hv, rfl, hres.1.symm, hres.2.1.symm, hres.2.2.symm⟩)
    | some page =>
      simp only [hf] at hres
      unfold processPage M.bind at hres
      refine Or.inr (Or.inr ⟨page, hv, rfl, ?_⟩)
      by_cases ht : page.text.length > 100
      · rw [if_pos ht] at hres
        by_cases hfl : (st.batch ++ [(⟨url, pageTitle page, strTake page.text 5000⟩ : PageRecord)]).length ≥ batchSize ∨
            st.total + (st.batch ++ [(⟨url, pageTitle page, strTake page.text 5000⟩ : PageRecord)]).length ≥ maxPages
        · rw [if_pos hfl] at hres
          simp only [M.bind] at hres
          rw [flushBatch_eq] at hres
          by_cases h0 : env.failAt c = true
          · rw [if_pos h0] at hres; exact absurd hres (by simp [M.pure])
          · rw [if_neg h0] at hres
            by_cases h1 : env.failAt (c + 1) = true
            · rw [if_pos h1] at hres; exact absurd hres (by simp [M.pure])
            · rw [if_neg h1] at hres
              simp only [M.pure, Prod.mk.injEq, Except.ok.injEq] at hres
              obtain ⟨hst, hs', hc'⟩ := hres
              subst hst
              refine ⟨rfl, ?_, Or.inr ⟨ht, st.batch ++ [(⟨url, pageTitle page, strTake page.text 5000⟩ : PageRecord)], rfl, Or.inr ⟨hfl, rfl, rfl, hs'.symm⟩⟩⟩
              exact ite_append _ _
        · rw [if_neg hfl] at hres
          simp only [M.pure, Prod.mk.injEq, Except.ok.injEq] at hres
          obtain ⟨hst, hs', hc'⟩ := hres
          subst hst
          refine ⟨rfl, ?_, Or.inr ⟨ht, st.batch ++ [(⟨url, pageTitle page, strTake page.text 5000⟩ : PageRecord)], rfl, Or.inl ⟨hfl, rfl, rfl, hs'.symm, hc'.symm⟩⟩⟩
          exact ite_append _ _
      · rw [if_neg ht] at hres
        simp only [M.pure, Prod.mk.injEq, Except.ok.injEq] at hres
        obtain ⟨hst, hs', hc'⟩ := hres
        subst hst
        refine ⟨rfl, ?_, Or.inl ⟨ht, rfl, rfl, hs'.symm, hc'.symm⟩⟩
        exact ite_append _ _

/-! ### Crawl invariants: domain confinement and the page ceiling -/

/-- The invariant maintained by the crawl loop: every queued, visited and
batched URL starts with the root URL; the stored pages for `source` are
likewise confined; the saved-page total respects the ceiling; a non-empty
batch still has room below the ceiling; and the stored page count never
exceeds the saved total. -/
structure CrawlInv (rootUrl source : String) (maxPages : Nat) (st : CrawlSt) (s : Store) :
    Prop where
  queue_conf : ∀ u ∈ st.queue, strStartsWith u rootUrl = true
  visited_conf : ∀ u ∈ st.visited, strStartsWith u rootUrl = true
  batch_conf : ∀ p ∈ st.batch, strStartsWith p.url rootUrl = true
  store_conf : ∀ d, s source = some d → ∀ p ∈ pagesOf d.content, strStartsWith p.url rootUrl = true
  total_le : st.total ≤ maxPages
  batch_room : st.batch ≠ [] → st.total + st.batch.length < maxPages
  store_len : ∀ d, s source = some d → (pagesOf d.content).length ≤ st.total

theorem crawlStep_preserves_inv (env : Env) (rootUrl source : String)
    (maxPages batchSize : Nat) (st : CrawlSt) (url : String) (rest : List String)
    (s : Store) (c : Nat) (st' : CrawlSt) (s' : Store) (c' : Nat)
    (hq : st.queue = url :: rest) (hguard : st.total < maxPages)
    (hinv : CrawlInv rootUrl source maxPages st s)
    (hres : crawlStep env rootUrl source maxPages batchSize st url rest s c =
      (Except.ok st', s', c')) :
    CrawlInv rootUrl source maxPages st' s' := by
  obtain ⟨hqc, hvc, hbc, hsc, htl, hbr, hsl⟩ := hinv
  have hurl : strStartsWith url rootUrl = true := by
    refine hqc url ?_
    rw [hq]
    exact List.mem_cons_self url rest
  have hrest : ∀ u ∈ rest, strStartsWith u rootUrl = true := by
    intro u hu
    refine hqc u ?_
    rw [hq]
    exact List.mem_cons_of_mem url hu
  rcases crawlStep_ok_cases env rootUrl source maxPages batchSize st url rest s c st' s' c'
      hres with
    ⟨hv, hst, hs, hc⟩ | ⟨hv, hfail, hst, hs, hc⟩ | ⟨page, hv, hfetch, hvis, hque, hinner⟩
  · subst hst
    subst hs
    exact ⟨hrest, hvc, hbc, hsc, htl, hbr, hsl⟩
  · subst hst
    subst hs
    refine ⟨hrest, ?_, hbc, hsc, htl, hbr, hsl⟩
    intro u hu
    rcases List.mem_cons.mp hu with h | h
    · subst h; exact hurl
    · exact hvc u h
  · have hvis' : ∀ u ∈ st'.visited, strStartsWith u rootUrl = true := by
      rw [hvis]
      intro u hu
      rcases List.mem_cons.mp hu with h | h
      · subst h; exact hurl
      · exact hvc u h
    have hque' : ∀ u ∈ st'.queue, strStartsWith u rootUrl = true := by
      rw [hque]
      intro u hu
      rcases List.mem_append.mp hu with h | h
      · exact hrest u h
      · by_cases hm : st'.total < maxPages
        · rw [if_pos hm] at h
          exact (extractLinks_mem h).1
        · rw [if_neg hm] at h
          exact absurd h (List.not_mem_nil u)
    rcases hinner with ⟨hts, hb, ht, hs, hc⟩ | ⟨hts, batch', hbdef, hinner2⟩
    · subst hs
      refine ⟨hque', hvis', ?_, hsc, ?_, ?_, ?_⟩
      · rw [hb]; exact hbc
      · rw [ht]; exact htl
      · rw [hb, ht]; exact hbr
      · rw [ht]; exact hsl
    · have hbc' : ∀ p ∈ batch', strStartsWith p.url rootUrl = true := by
        rw [hbdef]
        intro p hp
        rcases List.mem_append.mp hp with h | h
        · exact hbc p h
        · have : p = ⟨url, pageTitle page, strTake page.text 5000⟩ := List.mem_singleton.mp h
          rw [this]
          exact hurl
      have hblen : batch'.length = st.batch.length + 1 := by
        rw [hbdef]; simp
      have hroom' : st.total + batch'.length ≤ maxPages := by
        rcases List.eq_nil_or_concat st.batch  with hnil | _
        · rw [hblen, hnil]
          simpa using hguard
        · by_cases hnil : st.batch = []
          · rw [hblen, hnil]
            simpa using hguard
          · have := hbr hnil
            omega
      rcases hinner2 with ⟨hfl, hb, ht, hs, hc⟩ | ⟨hfl, hb, ht, hs⟩
      · subst hs
        refine ⟨hque', hvis', ?_, hsc, ?_, ?_, ?_⟩
        · rw [hb]; exact hbc'
        · rw [ht]; exact htl
        · intro _
          rw [hb, ht]
          have := (not_or.mp hfl).2
          omega
        · rw [ht]; exact hsl
      · have hprev_conf : ∀ p ∈ prevPages (s source), strStartsWith p.url rootUrl = true := by
          cases hso : s source with
          | none => intro p hp; exact absurd hp (by simp [prevPages])
          | some d0 =>
            intro p hp
            exact hsc d0 hso p (by simpa [prevPages] using hp)
        have hprev_len : (prevPages (s source)).length ≤ st.total := by
          cases hso : s source with
          | none => simp [prevPages]
          | some d0 => exact hsl d0 hso
        refine ⟨hque', hvis', ?_, ?_, ?_, ?_, ?_⟩
        · rw [hb]; intro p hp; exact absurd hp (List.not_mem_nil p)
        · intro d hd
          rw [hs] at hd
          simp only [setKey, if_pos rfl] at hd
          cases hd
          intro p hp
          simp only [pagesOf, mergedSite_pages] at hp
          rcases List.mem_append.mp hp with h | h
          · exact hprev_conf p h
          · exact hbc' p h
        · rw [ht]; exact hroom'
        · intro hne
          rw [hb] at hne
          exact absurd rfl hne
        · intro d hd
          rw [hs] at hd
          simp only [setKey, if_pos rfl] at hd
          cases hd
          simp only [pagesOf, mergedSite_pages, List.length_append]
          rw [ht]
          omega

theorem crawlLoop_preserves_inv (env : Env) (rootUrl source : String)
    (maxPages batchSize : Nat) :
    ∀ (fuel : Nat) (st : CrawlSt) (s : Store) (c : Nat) (st' : CrawlSt) (s' : Store) (c' : Nat),
    CrawlInv rootUrl source maxPages st s →
    crawlLoop env rootUrl source maxPages batchSize fuel st s c = (Except.ok st', s', c') →
    CrawlInv rootUrl source maxPages st' s' := by
  intro fuel
  induction fuel with
  | zero =>
    intro st s c st' s' c' hinv hres
    simp only [crawlLoop, M.pure, Prod.mk.injEq, Except.ok.injEq] at hres
    obtain ⟨h1, h2, h3⟩ := hres
    subst h1; subst h2
    exact hinv
  | succ fuel ih =>
    intro st s c st' s' c' hinv hres
    obtain ⟨vis, que, bat, tot⟩ := st
    cases que with
    | nil =>
      simp only [crawlLoop, M.pure, Prod.mk.injEq, Except.ok.injEq] at hres
      obtain ⟨h1, h2, h3⟩ := hres
      subst h1; subst h2
      exact hinv
    | cons url rest =>
      simp only [crawlLoop] at hres
      by_cases hg : tot < maxPages
      · rw [if_pos hg] at hres
        unfold M.bind at hres
        rcases hstep : crawlStep env rootUrl source maxPages batchSize
            ⟨vis, url :: rest, bat, tot⟩ url rest s c with ⟨r, s1, c1⟩
        rw [hstep] at hres
        cases r with
        | error e => exact absurd hres (by simp)
        | ok st1 =>
          simp only [] at hres
          exact ih st1 s1 c1 st' s' c'
            (crawlStep_preserves_inv env rootUrl source maxPages batchSize
              ⟨vis, url :: rest, bat, tot⟩ url rest s c st1 s1 c1 rfl hg hinv hstep) hres
      · rw [if_neg hg] at hres
        simp only [M.pure, Prod.mk.injEq, Except.ok.injEq] at hres
        obtain ⟨h1, h2, h3⟩ := hres
        subst h1; subst h2
        exact hinv

theorem scrapeAndSaveSite_eq (env : Env) (rootUrl source : String)
    (maxPages batchSize fuel : Nat) (s : Store) (c : Nat) :
    scrapeAndSaveSite env rootUrl source maxPages batchSize fuel s c =
      if env.failAt c then (Except.error "db error", s, c + 1)
      else
        match crawlLoop env rootUrl source maxPages batchSize fuel
            { visited := [], queue := [rootUrl], batch := [], total := 0 }
            (setKey s source ⟨DocContent.site (freshSite rootUrl), env.now⟩) (c + 1) with
        | (Except.ok st2, s2, c2) =>
          if st2.batch.isEmpty then (Except.ok (), s2, c2)
          else flushFinal env rootUrl source st2.batch s2 c2
        | (Except.error e, s2, c2) => (Except.error e, s2, c2) := by
  unfold scrapeAndSaveSite dbUpsert dbOp M.bind M.pure
  cases h0 : env.failAt c with
  | true => simp [h0]
  | false =>
    simp only [h0, Bool.false_eq_true, if_false]
    rcases hloop : crawlLoop env rootUrl source maxPages batchSize fuel
        { visited := [], queue := [rootUrl], batch := [], total := 0 }
        (setKey s source ⟨DocContent.site (freshSite rootUrl), env.now⟩) (c + 1) with
      ⟨r2, s2, c2⟩
    cases r2 with
    | error e => simp
    | ok st2 =>
      by_cases hbe : st2.batch.isEmpty = true
      · simp [hbe, M.pure]
      · simp [hbe]

theorem scrapeAndSaveSite_ok_inv (env : Env) (rootUrl source : String)
    (maxPages batchSize fuel : Nat) (s : Store) (c : Nat) (d : Doc)
    (hok : (scrapeAndSaveSite env rootUrl source maxPages batchSize fuel s c).1 =
      Except.ok ())
    (hd : (scrapeAndSaveSite env rootUrl source maxPages batchSize fuel s c).2.1 source =
      some d) :
    (∀ p ∈ pagesOf d.content, strStartsWith p.url rootUrl = true) ∧
    (pagesOf d.content).length ≤ maxPages := by
  rw [scrapeAndSaveSite_eq] at hok hd
  by_cases h0 : env.failAt c = true
  · rw [if_pos h0] at hok
    exact absurd hok (by simp)
  · rw [if_neg h0] at hok hd
    rcases hloop : crawlLoop env rootUrl source maxPages batchSize fuel
        { visited := [], queue := [rootUrl], batch := [], total := 0 }
        (setKey s source ⟨DocContent.site (freshSite rootUrl), env.now⟩) (c + 1) with
      ⟨r2, s2, c2⟩
    rw [hloop] at hok hd
    cases r2 with
    | error e => exact absurd hok (by simp)
    | ok st2 =>
      simp only [] at hok hd
      have hinv0 : CrawlInv rootUrl source maxPages
          { visited := [], queue := [rootUrl], batch := [], total := 0 }
          (setKey s source ⟨DocContent.site (freshSite rootUrl), env.now⟩) := by
        refine ⟨?_, ?_, ?_, ?_, ?_, ?_, ?_⟩
        · intro u hu
          have : u = rootUrl := List.mem_singleton.mp hu
          rw [this]
          exact strStartsWith_self rootUrl
        · intro u hu; exact absurd hu (List.not_mem_nil u)
        · intro p hp; exact absurd hp (List.not_mem_nil p)
        · intro d0 hd0
          simp only [setKey, if_pos rfl] at hd0
          cases hd0
          intro p hp
          exact absurd hp (by simp [pagesOf, freshSite])
        · exact Nat.zero_le maxPages
        · intro h; exact absurd rfl h
        · intro d0 hd0
          simp only [setKey, if_pos rfl] at hd0
          cases hd0
          simp [pagesOf, freshSite]
      have hinv2 := crawlLoop_preserves_inv env rootUrl source maxPages batchSize fuel
        _ _ _ st2 s2 c2 hinv0 hloop
      by_cases hbe : st2.batch.isEmpty = true
      · rw [if_pos hbe] at hd
        refine ⟨hinv2.store_conf d hd, ?_⟩
        exact le_trans (hinv2.store_len d hd) hinv2.total_le
      · rw [if_neg hbe] at hok hd
        rcases hfin : flushFinal env rootUrl source st2.batch s2 c2 with ⟨r3, s3, c3⟩
        rw [hfin] at hok hd
        cases r3 with
        | error e => exact absurd hok (by simp)
        | ok u =>
          simp only [] at hd
          obtain ⟨sd, hsd, hs3⟩ := flushFinal_ok env rootUrl source st2.batch s2 c2 u s3 c3 hfin
          rw [hs3] at hd
          simp only [setKey, if_pos rfl] at hd
          cases hd
          have hprev_conf : ∀ p ∈ prevPages (s2 source), strStartsWith p.url rootUrl = true := by
            cases hso : s2 source with
            | none => intro p hp; exact absurd hp (by simp [prevPages])
            | some d0 =>
              intro p hp
              exact hinv2.store_conf d0 hso p (by simpa [prevPages] using hp)
          have hprev_len : (prevPages (s2 source)).length ≤ st2.total := by
            cases hso : s2 source with
            | none => simp [prevPages]
            | some d0 => exact hinv2.store_len d0 hso
          have hbne : st2.batch ≠ [] := by
            intro h
            rw [h] at hbe
            exact hbe rfl
          have hroom := hinv2.batch_room hbne
          constructor
          · intro p hp
            simp only [pagesOf, hsd] at hp
            rcases List.mem_append.mp hp with h | h
            · exact hprev_conf p h
            · exact hinv2.batch_conf p h
          · simp only [pagesOf, hsd, List.length_append]
            omega

/-! ### C5 and C6: domain confinement and the page ceiling -/

/-- A two-page site: the root page links to `/a`, both pages have long text. -/
def envTwoPages : Env :=
  { web := fun u _ =>
      if u = "https://r" then FetchOutcome.ok ⟨"T", "", longText, ["/a"]⟩
      else FetchOutcome.ok ⟨"A", "", longText, []⟩,
    resolve := fun _ href => some ("https://r" ++ href),
    failAt := fun _ => false, now := 100 }

def pageRoot : PageRecord := ⟨"https://r", "T", longText⟩

def pageA : PageRecord := ⟨"https://r/a", "A", longText⟩

/-- C5: every `PageRecord` a completed crawl has stored in the `source`
document has a URL that starts with the root URL; a link survives the
enqueueing filter only if its absolute form starts with the root URL (so an
off-domain link is never enqueued); and every URL the crawl loop ever holds in
its queue or visited set (the visited set receives each URL exactly when it is
fetched) starts with the root URL, so an off-domain URL is never fetched. -/
theorem domain_confinement (env : Env) (rootUrl source : String)
    (maxPages batchSize fuel : Nat) (s : Store) (c : Nat) (d : Doc) (p : PageRecord)
    (pageUrl link : String) (visited : List String) (hrefs : List String)
    (maxPages2 batchSize2 fuel2 : Nat) (s2 : Store) (c2 : Nat) (stv : CrawlSt) (u : String)
    (hok : (scrapeAndSaveSite env rootUrl source maxPages batchSize fuel s c).1 =
      Except.ok ())
    (hd : (scrapeAndSaveSite env rootUrl source maxPages batchSize fuel s c).2.1 source =
      some d)
    (hp : p ∈ pagesOf d.content)
    (hl : link ∈ extractLinks env.resolve rootUrl pageUrl visited hrefs)
    (hs2 : s2 source = none)
    (hloop : (crawlLoop env rootUrl source maxPages2 batchSize2 fuel2
      { visited := [], queue := [rootUrl], batch := [], total := 0 } s2 c2).1 =
      Except.ok stv)
    (hu : u ∈ stv.queue ∨ u ∈ stv.visited) :
    strStartsWith p.url rootUrl = true ∧ strStartsWith link rootUrl = true ∧
    strStartsWith u rootUrl = true := by
  refine ⟨(scrapeAndSaveSite_ok_inv env rootUrl source maxPages batchSize fuel s c d
    hok hd).1 p hp, (extractLinks_mem hl).1, ?_⟩
  rcases hloopt : crawlLoop env rootUrl source maxPages2 batchSize2 fuel2
      { visited := [], queue := [rootUrl], batch := [], total := 0 } s2 c2 with ⟨rv, sv, cv⟩
  rw [hloopt] at hloop
  simp only [] at hloop
  subst hloop
  have hinv0 : CrawlInv rootUrl source maxPages2
      { visited := [], queue := [rootUrl], batch := [], total := 0 } s2 := by
    refine ⟨?_, ?_, ?_, ?_, ?_, ?_, ?_⟩
    · intro u0 hu0
      have : u0 = rootUrl := List.mem_singleton.mp hu0
      rw [this]
      exact strStartsWith_self rootUrl
    · intro u0 hu0; exact absurd hu0 (List.not_mem_nil u0)
    · intro p0 hp0; exact absurd hp0 (List.not_mem_nil p0)
    · intro d0 hd0
      rw [hs2] at hd0
      cases hd0
    · exact Nat.zero_le maxPages2
    · intro h; exact absurd rfl h
    · intro d0 hd0
      rw [hs2] at hd0
      cases hd0
  have hinv := crawlLoop_preserves_inv env rootUrl source maxPages2 batchSize2 fuel2
    _ _ _ stv sv cv hinv0 hloopt
  rcases hu with h | h
  · exact hinv.queue_conf u h
  · exact hinv.visited_conf u h

/-- Witness for `domain_confinement`: a concrete two-page crawl. -/
theorem domain_confinement_witness :
    strStartsWith pageA.url "https://r" = true ∧
    strStartsWith "https://r/a" "https://r" = true ∧
    strStartsWith "https://r/a" "https://r" = true :=
  domain_confinement envTwoPages "https://r" "src" 50 10 5 storeEmpty 0
    ⟨DocContent.site ⟨"", "https://r", [pageRoot, pageA]⟩, 100⟩ pageA
    "https://r" "https://r/a" ["https://r"] ["/a"] 50 10 5 storeEmpty 0
    ⟨["https://r/a", "https://r"], [], [pageRoot, pageA], 0⟩ "https://r/a"
    (by rfl) (by rfl) (by decide) (by decide) rfl (by rfl)
    (Or.inr (by decide))

/-- C6: for every completed crawl of a source, the number of pages stored in
that source's document is at most the configured `maxPages` ceiling, whatever
the batch size and however the batch buffer was flushed. -/
theorem page_ceiling (env : Env) (rootUrl source : String)
    (maxPages batchSize fuel : Nat) (s : Store) (c : Nat) (d : Doc)
    (hok : (scrapeAndSaveSite env rootUrl source maxPages batchSize fuel s c).1 =
      Except.ok ())
    (hd : (scrapeAndSaveSite env rootUrl source maxPages batchSize fuel s c).2.1 source =
      some d) :
    (pagesOf d.content).length ≤ maxPages :=
  (scrapeAndSaveSite_ok_inv env rootUrl source maxPages batchSize fuel s c d hok hd).2

/-- Witness for `page_ceiling`: the concrete two-page crawl saves 2 ≤ 50 pages. -/
theorem page_ceiling_witness :
    (pagesOf (DocContent.site ⟨"", "https://r", [pageRoot, pageA]⟩)).length ≤ 50 :=
  page_ceiling envTwoPages "https://r" "src" 50 10 5 storeEmpty 0
    ⟨DocContent.site ⟨"", "https://r", [pageRoot, pageA]⟩, 100⟩ (by rfl) (by rfl)

/-! ### C7: behaviour on skipped pages and failed fetches -/

/-- A root page whose extracted text is below the minimum content threshold
but which carries an in-domain link. -/
def envSkipPage : Env :=
  { web := fun _ _ => FetchOutcome.ok ⟨"T", "", "short", ["/a"]⟩,
    resolve := fun _ href => some ("https://r" ++ href),
    failAt := fun _ => false, now := 100 }

/-- C7 counterexample: a fetched page whose extracted text (5 characters) is
below the 100-character threshold is skipped — nothing is batched, nothing
saved — yet its outbound link IS enqueued: the resulting queue is
`["https://r/a"]`, not `[]`.  This refutes the claim that on a skip the
crawler continues to the next URL without enqueuing any outbound links. -/
theorem skipped_page_enqueues_links :
    envSkipPage.web "https://r" 0 = FetchOutcome.ok ⟨"T", "", "short", ["/a"]⟩ ∧
    ¬ ("short".length > 100) ∧
    (crawlStep envSkipPage "https://r" "src" 50 10 ⟨[], ["https://r"], [], 0⟩ "https://r" []
      storeEmpty 0).1 = Except.ok ⟨["https://r"], ["https://r/a"], [], 0⟩ := by
  refine ⟨rfl, by decide, by rfl⟩

/-- C7 (amended): on a failed fetch the crawler continues to the next URL
without enqueuing anything; on a skipped page (extracted text not above the
100-character threshold) nothing is pushed to the batch and the saved total
is unchanged — the page is excluded from the snapshot — but its outbound
links are still extracted and enqueued exactly as for a saved page. -/
theorem skip_and_failed_fetch_behaviour (envS envF : Env) (rootUrl source : String)
    (maxPages batchSize : Nat) (stS stF : CrawlSt) (urlS urlF : String)
    (restS restF : List String) (page : PageData)
    (hnvS : urlS ∉ stS.visited)
    (hokS : (fetchWithRetry envS.web urlS).1 = some page)
    (hskip : ¬ page.text.length > 100)
    (hnvF : urlF ∉ stF.visited)
    (hfailF : (fetchWithRetry envF.web urlF).1 = none) :
    crawlStep envS rootUrl source maxPages batchSize stS urlS restS =
      M.pure { visited := urlS :: stS.visited,
               queue := if stS.total < maxPages then
                   restS ++ extractLinks envS.resolve rootUrl urlS (urlS :: stS.visited)
                     page.hrefs
                 else restS,
               batch := stS.batch, total := stS.total } ∧
    crawlStep envF rootUrl source maxPages batchSize stF urlF restF =
      M.pure { stF with queue := restF, visited := urlF :: stF.visited } := by
  constructor
  · funext s c
    simp [crawlStep, processPage, hnvS, hokS, hskip, M.bind, M.pure]
  · funext s c
    simp [crawlStep, hnvF, hfailF, M.pure]

/-- Witness for `skip_and_failed_fetch_behaviour` at concrete environments. -/
theorem skip_and_failed_fetch_behaviour_witness :
    crawlStep envSkipPage "https://r" "src" 50 10 ⟨[], ["https://r"], [], 0⟩ "https://r" [] =
      M.pure ⟨["https://r"], ["https://r/a"], [], 0⟩ ∧
    crawlStep envAllPermanent "https://r" "src" 50 10 ⟨[], ["https://r"], [], 0⟩
        "https://r" [] =
      M.pure ⟨["https://r"], [], [], 0⟩ := by
  have h := skip_and_failed_fetch_behaviour envSkipPage envAllPermanent "https://r" "src"
    50 10 ⟨[], ["https://r"], [], 0⟩ ⟨[], ["https://r"], [], 0⟩ "https://r" "https://r" [] []
    ⟨"T", "", "short", ["/a"]⟩ (by decide) rfl (by decide) (by decide) rfl
  exact h

/-! ### C8: link enqueueing -/

/-- Every page has long text and one in-domain link `/a`. -/
def envDupLink : Env :=
  { web := fun _ _ => FetchOutcome.ok ⟨"T", "", longText, ["/a"]⟩,
    resolve := fun _ href => some ("https://r" ++ href),
    failAt := fun _ => false, now := 100 }

/-- C8 counterexample: processing the root page while `https://r/a` is already
in the pending queue enqueues `https://r/a` again — the code filters only
against the visited set, never against the queue — leaving the queue with a
duplicate entry.  This refutes the claim that a link is enqueued only if it is
not already present in the pending queue. -/
theorem queued_link_enqueued_again :
    "https://r/a" ∈ ["https://r/a"] ∧
    (crawlStep envDupLink "https://r" "src" 50 10 ⟨[], ["https://r", "https://r/a"], [], 0⟩
        "https://r" ["https://r/a"] storeEmpty 0).1 =
      Except.ok ⟨["https://r"], ["https://r/a", "https://r/a"],
        [⟨"https://r", "T", longText⟩], 0⟩ := by
  refine ⟨by decide, by rfl⟩

/-- C8 (amended): for a successfully fetched page the crawler appends the
page's outbound links to the end of the queue in discovery order, capped at 5
per page, keeping only links that resolve to an absolute URL starting with the
root URL and that are not already in the visited set; no check against the
pending queue is made, and once the post-save total reaches the ceiling
nothing is enqueued. -/
theorem enqueue_links_characterization (env : Env) (rootUrl source : String)
    (maxPages batchSize : Nat) (st : CrawlSt) (url : String) (rest : List String)
    (page : PageData) (s : Store) (c : Nat) (st' : CrawlSt) (s' : Store) (c' : Nat)
    (l : String)
    (hnv : url ∉ st.visited)
    (hok : (fetchWithRetry env.web url).1 = some page)
    (hres : crawlStep env rootUrl source maxPages batchSize st url rest s c =
      (Except.ok st', s', c'))
    (hl : l ∈ extractLinks env.resolve rootUrl url (url :: st.visited) page.hrefs) :
    st'.queue = rest ++ (if st'.total < maxPages then
        extractLinks env.resolve rootUrl url (url :: st.visited) page.hrefs else []) ∧
    (extractLinks env.resolve rootUrl url (url :: st.visited) page.hrefs).length ≤ 5 ∧
    l ∉ (url :: st.visited) ∧ strStartsWith l rootUrl = true := by
  rcases crawlStep_ok_cases env rootUrl source maxPages batchSize st url rest s c st' s' c'
      hres with ⟨hv, _⟩ | ⟨_, hfail, _⟩ | ⟨page2, _, hfetch, _, hque, _⟩
  · exact absurd hv hnv
  · rw [hok] at hfail
    cases hfail
  · rw [hok] at hfetch
    cases hfetch
    exact ⟨hque, extractLinks_length_le _ _ _ _ _,
      (extractLinks_mem hl).2, (extractLinks_mem hl).1⟩

/-- Witness for `enqueue_links_characterization` at the duplicate-link input. -/
theorem enqueue_links_characterization_witness :
    (⟨["https://r"], ["https://r/a", "https://r/a"], [pageRoot], 0⟩ : CrawlSt).queue =
      ["https://r/a"] ++
        (if (⟨["https://r"], ["https://r/a", "https://r/a"], [pageRoot], 0⟩ : CrawlSt).total
            < 50 then
          extractLinks envDupLink.resolve "https://r" "https://r" ["https://r"] ["/a"]
        else []) ∧
    (extractLinks envDupLink.resolve "https://r" "https://r" ["https://r"] ["/a"]).length ≤ 5 ∧
    "https://r/a" ∉ ["https://r"] ∧ strStartsWith "https://r/a" "https://r" = true :=
  enqueue_links_characterization envDupLink "https://r" "src" 50 10
    ⟨[], ["https://r", "https://r/a"], [], 0⟩ "https://r" ["https://r/a"]
    ⟨"T", "", longText, ["/a"]⟩ storeEmpty 0
    ⟨["https://r"], ["https://r/a", "https://r/a"], [pageRoot], 0⟩ storeEmpty 0
    "https://r/a" (by decide) rfl (by rfl) (by decide)

/-! ### C2: total fetch failure silently overwrites production -/

def oldPage : PageRecord := ⟨"https://handbook.gitlab.com/x", "Old", "old handbook text"⟩

/-- A store holding a previously scraped production snapshot for 'handbook'
and a stored conversation. -/
def storeWithData : Store :=
  fun k =>
    if k = "handbook" then some ⟨DocContent.site ⟨"", handbookUrl, [oldPage]⟩, 5⟩
    else if k = "last_conversation" then some ⟨DocContent.other "conversation payload", 7⟩
    else none

/-- C2 (code bug): when every fetch of every URL fails with a transient
connection-reset error (3 attempts each), the crawl completes with zero pages
instead of raising, so `backgroundRefresh` reports success, leaves
`lastRefreshError` null, and the staged swap replaces the pre-existing
production 'handbook' snapshot with an empty page list.  Production does NOT
remain as it was and no descriptive error is recorded; of the claim only
`isRefreshing` = false afterwards holds. -/
theorem transient_failure_overwrites_production :
    (backgroundRefresh envAllTransient 5 rs0 storeWithData 0).1.success = true ∧
    (backgroundRefresh envAllTransient 5 rs0 storeWithData 0).2.1.lastRefreshError = none ∧
    (backgroundRefresh envAllTransient 5 rs0 storeWithData 0).2.1.isRefreshing = false ∧
    (backgroundRefresh envAllTransient 5 rs0 storeWithData 0).2.2.1 "handbook" =
      some ⟨DocContent.site (freshSite handbookUrl), 100⟩ ∧
    storeWithData "handbook" = some ⟨DocContent.site ⟨"", handbookUrl, [oldPage]⟩, 5⟩ := by
  refine ⟨by rfl, by rfl, by rfl, by rfl, by rfl⟩

/-! ### C9: the refresh endpoint waits for the refresh -/

/-- Every database operation fails (the store is down). -/
def envDbFail : Env :=
  { web := fun _ _ => FetchOutcome.err true "read ECONNRESET",
    resolve := fun _ href => some href,
    failAt := fun _ => true, now := 100 }

/-- C9 (code bug): the `POST /refresh-data` handler awaits the entire refresh
before responding, and its response is a function of the finished refresh's
outcome: from the same initial state the response message is the
"started in background" success message under one environment and the
refresh's failure message under another, and it reports `isRefreshing` =
false precisely because the refresh has already completed when the response
is produced.  The claim that the trigger returns immediately with a response
independent of the refresh's outcome is false of the code. -/
theorem refresh_endpoint_depends_on_outcome :
    (refreshDataHandler envAllTransient 5 rs0 storeWithData 0).1.message =
      "GitLab data refresh started in background" ∧
    (refreshDataHandler envDbFail 5 rs0 storeWithData 0).1.message =
      "Refresh failed: db error" ∧
    (refreshDataHandler envAllTransient 5 rs0 storeWithData 0).1.isRefreshing = false := by
  refine ⟨by rfl, by rfl, by rfl⟩

/-! ### Frame lemmas: the crawl writes only its own source key -/

theorem flushBatch_frame (env : Env) (rootUrl source : String) (batch : List PageRecord)
    (s : Store) (c : Nat) (k : String) (hk : k ≠ source) :
    ((flushBatch env rootUrl source batch s c).2.1) k = s k := by
  rw [flushBatch_eq]
  by_cases h0 : env.failAt c = true
  · rw [if_pos h0]
  · rw [if_neg h0]
    by_cases h1 : env.failAt (c + 1) = true
    · rw [if_pos h1]
    · rw [if_neg h1]
      simp [setKey, hk]

theorem flushFinal_frame (env : Env) (rootUrl source : String) (batch : List PageRecord)
    (s : Store) (c : Nat) (k : String) (hk : k ≠ source) :
    ((flushFinal env rootUrl source batch s c).2.1) k = s k := by
  rw [flushFinal_eq]
  by_cases h0 : env.failAt c = true
  · rw [if_pos h0]
  · rw [if_neg h0]
    cases hs : s source with
    | none =>
      by_cases h1 : env.failAt (c + 1) = true
      · simp [h1]
      · simp [h1, setKey, hk]
    | some d =>
      cases hd : d.content with
      | site sd =>
        by_cases h1 : env.failAt (c + 1) = true
        · simp [hd, h1]
        · simp [hd, h1, setKey, hk]
      | other raw => simp [hd]

theorem processPage_frame (env : Env) (rootUrl source : String) (maxPages batchSize : Nat)
    (st : CrawlSt) (url : String) (rest : List String) (page : PageData)
    (s : Store) (c : Nat) (k : String) (hk : k ≠ source) :
    ((processPage env rootUrl source maxPages batchSize st url rest page s c).2.1) k = s k := by
  unfold processPage M.bind
  by_cases ht : page.text.length > 100
  · rw [if_pos ht]
    by_cases hfl :
        (st.batch ++ [(⟨url, pageTitle page, strTake page.text 5000⟩ : PageRecord)]).length
          ≥ batchSize ∨
        st.total +
          (st.batch ++
            [(⟨url, pageTitle page, strTake page.text 5000⟩ : PageRecord)]).length
          ≥ maxPages
    · rw [if_pos hfl]
      rcases hfb : flushBatch env rootUrl source
          (st.batch ++ [(⟨url, pageTitle page, strTake page.text 5000⟩ : PageRecord)])
          s c with ⟨r, s1, c1⟩
      have hframe : s1 k = s k := by
        have := flushBatch_frame env rootUrl source
          (st.batch ++ [(⟨url, pageTitle page, strTake page.text 5000⟩ : PageRecord)])
          s c k hk
        rw [hfb] at this
        exact this
      cases r with
      | ok u => exact hframe
      | error e => exact hframe
    · rw [if_neg hfl]
      rfl
  · rw [if_neg ht]
    rfl

theorem crawlStep_frame (env : Env) (rootUrl source : String) (maxPages batchSize : Nat)
    (st : CrawlSt) (url : String) (rest : List String) (s : Store) (c : Nat) (k : String)
    (hk : k ≠ source) :
    ((crawlStep env rootUrl source maxPages batchSize st url rest s c).2.1) k = s k := by
  unfold crawlStep
  by_cases hv : url ∈ st.visited
  · rw [if_pos hv]
    rfl
  · rw [if_neg hv]
    cases hf : (fetchWithRetry env.web url).1 with
    | none => rfl
    | some page =>
      exact processPage_frame env rootUrl source maxPages batchSize st url rest page s c k hk

theorem crawlLoop_frame (env : Env) (rootUrl source : String) (maxPages batchSize : Nat) :
    ∀ (fuel : Nat) (st : CrawlSt) (s : Store) (c : Nat) (k : String), k ≠ source →
    ((crawlLoop env rootUrl source maxPages batchSize fuel st s c).2.1) k = s k := by
  intro fuel
  induction fuel with
  | zero => intro st s c k hk; rfl
  | succ fuel ih =>
    intro st s c k hk
    obtain ⟨vis, que, bat, tot⟩ := st
    cases que with
    | nil => rfl
    | cons url rest =>
      simp only [crawlLoop]
      by_cases hg : tot < maxPages
      · rw [if_pos hg]
        unfold M.bind
        rcases hstep : crawlStep env rootUrl source maxPages batchSize
            ⟨vis, url :: rest, bat, tot⟩ url rest s c with ⟨r, s1, c1⟩
        have hframe : s1 k = s k := by
          have := crawlStep_frame env rootUrl source maxPages batchSize
            ⟨vis, url :: rest, bat, tot⟩ url rest s c k hk
          rw [hstep] at this
          exact this
        cases r with
        | ok st1 => exact (ih st1 s1 c1 k hk).trans hframe
        | error e => exact hframe
      · rw [if_neg hg]
        rfl

theorem scrapeAndSaveSite_frame (env : Env) (rootUrl source : String)
    (maxPages batchSize fuel : Nat) (s : Store) (c : Nat) (k : String) (hk : k ≠ source) :
    ((scrapeAndSaveSite env rootUrl source maxPages batchSize fuel s c).2.1) k = s k := by
  rw [scrapeAndSaveSite_eq]
  by_cases h0 : env.failAt c = true
  · rw [if_pos h0]
  · rw [if_neg h0]
    rcases hloop : crawlLoop env rootUrl source maxPages batchSize fuel
        { visited := [], queue := [rootUrl], batch := [], total := 0 }
        (setKey s source ⟨DocContent.site (freshSite rootUrl), env.now⟩) (c + 1) with
      ⟨r2, s2, c2⟩
    have hinit : (setKey s source ⟨DocContent.site (freshSite rootUrl), env.now⟩) k = s k := by
      simp [setKey, hk]
    have hframe2 : s2 k = s k := by
      have := crawlLoop_frame env rootUrl source maxPages batchSize fuel
        { visited := [], queue := [rootUrl], batch := [], total := 0 }
        (setKey s source ⟨DocContent.site (freshSite rootUrl), env.now⟩) (c + 1) k hk
      rw [hloop] at this
      exact this.trans hinit
    cases r2 with
    | ok st2 =>
      show ((if st2.batch.isEmpty = true then (Except.ok (), s2, c2)
        else flushFinal env rootUrl source st2.batch s2 c2)).2.1 k = s k
      by_cases hbe : st2.batch.isEmpty = true
      · rw [if_pos hbe]
        exact hframe2
      · rw [if_neg hbe]
        have := flushFinal_frame env rootUrl source st2.batch s2 c2 k hk
        exact this.trans hframe2
    | error e => exact hframe2

/-! ### C1: error handling of the staged refresh -/

theorem scrapeBody_eq (env : Env) (fuel : Nat) (s : Store) (c : Nat) :
    scrapeBody env fuel s c =
      match scrapeAndSaveSite env handbookUrl "handbook_staging" 50 10 fuel s c with
      | (Except.ok _, s1, c1) =>
        (match scrapeAndSaveSite env directionUrl "direction_staging" 50 10 fuel s1 c1 with
         | (Except.ok _, s2, c2) => dbOp env (fun st => ((), swapEffect env.now st)) s2 c2
         | (Except.error e2, s2, c2) => (Except.error e2, s2, c2))
      | (Except.error e1, s1, c1) => (Except.error e1, s1, c1) := by
  unfold scrapeBody M.bind
  rcases h1 : scrapeAndSaveSite env handbookUrl "handbook_staging" 50 10 fuel s c with
    ⟨r1, s1, c1⟩
  cases r1 with
  | error e1 => rfl
  | ok u1 =>
    simp only [M]
    rcases h2 : scrapeAndSaveSite env directionUrl "direction_staging" 50 10 fuel s1 c1 with
      ⟨r2, s2, c2⟩
    cases r2 with
    | error e2 => rfl
    | ok u2 => rfl

theorem scrapeBody_error_prod (env : Env) (fuel : Nat) (s : Store) (c : Nat)
    (e : Err) (s' : Store) (c' : Nat) (k : String)
    (hrun : scrapeBody env fuel s c = (Except.error e, s', c'))
    (hk1 : k ≠ "handbook_staging") (hk2 : k ≠ "direction_staging") :
    s' k = s k := by
  rw [scrapeBody_eq] at hrun
  rcases h1 : scrapeAndSaveSite env handbookUrl "handbook_staging" 50 10 fuel s c with
    ⟨r1, s1, c1⟩
  rw [h1] at hrun
  have hf1 : s1 k = s k := by
    have := scrapeAndSaveSite_frame env handbookUrl "handbook_staging" 50 10 fuel s c k hk1
    rw [h1] at this
    exact this
  cases r1 with
  | error e1 =>
    simp only [Prod.mk.injEq, Except.error.injEq] at hrun
    obtain ⟨-, hs, -⟩ := hrun
    rw [← hs]
    exact hf1
  | ok u1 =>
    simp only [M] at hrun
    rcases h2 : scrapeAndSaveSite env directionUrl "direction_staging" 50 10 fuel s1 c1 with
      ⟨r2, s2, c2⟩
    rw [h2] at hrun
    have hf2 : s2 k = s1 k := by
      have := scrapeAndSaveSite_frame env directionUrl "direction_staging" 50 10 fuel
        s1 c1 k hk2
      rw [h2] at this
      exact this
    cases r2 with
    | error e2 =>
      simp only [Prod.mk.injEq, Except.error.injEq] at hrun
      obtain ⟨-, hs, -⟩ := hrun
      rw [← hs]
      exact hf2.trans hf1
    | ok u2 =>
      replace hrun : dbOp env (fun st => ((), swapEffect env.now st)) s2 c2 =
          (Except.error e, s', c') := hrun
      unfold dbOp at hrun
      by_cases h0 : env.failAt c2 = true
      · rw [if_pos h0] at hrun
        simp only [Prod.mk.injEq, Except.error.injEq] at hrun
        obtain ⟨-, hs, -⟩ := hrun
        rw [← hs]
        exact hf2.trans hf1
      · rw [if_neg h0] at hrun
        exact absurd hrun (by simp)

/-- C1 (amended): if any step of the staged refresh raises an error, the
production documents 'handbook' and 'direction' are exactly as they were
before the refresh began, and the refresh runs the staging cleanup: both
staging documents are absent afterwards unless the cleanup deletion — the
final database operation of the failed refresh — itself failed (a failing
cleanup is caught and only logged, so staging records may then survive). -/
theorem error_cleanup_and_production_intact (env : Env) (fuel : Nat) (s : Store) (c : Nat)
    (e : Err)
    (hrun : (scrapeGitLabData env fuel s c).1 = Except.error e) :
    (scrapeGitLabData env fuel s c).2.1 "handbook" = s "handbook" ∧
    (scrapeGitLabData env fuel s c).2.1 "direction" = s "direction" ∧
    (((scrapeGitLabData env fuel s c).2.1 "handbook_staging" = none ∧
      (scrapeGitLabData env fuel s c).2.1 "direction_staging" = none) ∨
     env.failAt ((scrapeGitLabData env fuel s c).2.2 - 1) = true) := by
  unfold scrapeGitLabData at hrun ⊢
  rcases hbody : scrapeBody env fuel s c with ⟨rb, sb, cb⟩
  simp only [hbody] at hrun ⊢
  cases rb with
  | ok u => exact absurd hrun (by simp)
  | error eb =>
    have hprod1 : sb "handbook" = s "handbook" :=
      scrapeBody_error_prod env fuel s c eb sb cb "handbook" hbody (by decide) (by decide)
    have hprod2 : sb "direction" = s "direction" :=
      scrapeBody_error_prod env fuel s c eb sb cb "direction" hbody (by decide) (by decide)
    show (dbOp env (fun st => ((), delStaging st)) sb cb).2.1 "handbook" = s "handbook" ∧
      (dbOp env (fun st => ((), delStaging st)) sb cb).2.1 "direction" = s "direction" ∧
      (((dbOp env (fun st => ((), delStaging st)) sb cb).2.1 "handbook_staging" = none ∧
        (dbOp env (fun st => ((), delStaging st)) sb cb).2.1 "direction_staging" = none) ∨
       env.failAt ((dbOp env (fun st => ((), delStaging st)) sb cb).2.2 - 1) = true)
    unfold dbOp
    by_cases h0 : env.failAt cb = true
    · rw [if_pos h0]
      exact ⟨hprod1, hprod2, Or.inr (by simpa using h0)⟩
    · rw [if_neg h0]
      refine ⟨?_, ?_, Or.inl ⟨?_, ?_⟩⟩
      · show (delStaging sb) "handbook" = s "handbook"
        rw [← hprod1]
        simp [delStaging]
      · show (delStaging sb) "direction" = s "direction"
        rw [← hprod2]
        simp [delStaging]
      · simp [delStaging]
      · simp [delStaging]

/-- Fetches fail permanently; only the very first database operation fails. -/
def envFailFirst : Env :=
  { web := fun _ _ => FetchOutcome.err false "Request failed with status code 500",
    resolve := fun _ href => some href,
    failAt := fun c => c == 0, now := 100 }

/-- Witness for `error_cleanup_and_production_intact`: the very first store
write fails, the refresh raises, production is untouched and staging absent. -/
theorem error_cleanup_witness :
    (scrapeGitLabData envFailFirst 5 storeWithData 0).2.1 "handbook" =
      storeWithData "handbook" ∧
    (scrapeGitLabData envFailFirst 5 storeWithData 0).2.1 "direction" =
      storeWithData "direction" ∧
    (((scrapeGitLabData envFailFirst 5 storeWithData 0).2.1 "handbook_staging" = none ∧
      (scrapeGitLabData envFailFirst 5 storeWithData 0).2.1 "direction_staging" = none) ∨
     envFailFirst.failAt ((scrapeGitLabData envFailFirst 5 storeWithData 0).2.2 - 1) = true) :=
  error_cleanup_and_production_intact envFailFirst 5 storeWithData 0 "db error" (by rfl)

/-- Fetches fail permanently; database operations 1 and 2 fail. -/
def envFail12 : Env :=
  { web := fun _ _ => FetchOutcome.err false "Request failed with status code 500",
    resolve := fun _ href => some href,
    failAt := fun c => c == 1 || c == 2, now := 100 }

/-- C1 counterexample: with database operation 1 (initializing the
'direction_staging' document) and operation 2 (the cleanup deletion) both
failing, the refresh raises an error while the 'handbook_staging' document —
created by operation 0 — remains in the store: the cleanup deletion itself
failed and was merely logged.  This refutes the unconditional claim that a
failed refresh deletes every staging record that exists. -/
theorem staging_survives_failed_cleanup :
    (scrapeGitLabData envFail12 5 storeEmpty 0).1 = Except.error "db error" ∧
    (scrapeGitLabData envFail12 5 storeEmpty 0).2.1 "handbook_staging" =
      some ⟨DocContent.site (freshSite handbookUrl), 100⟩ := by
  refine ⟨by rfl, by rfl⟩

/-! ### C10: a refresh reads and writes only the four refresh keys -/

/-- The computation `m` touches the store only at keys in `ks`: the final store agrees with
the initial one off `ks` whatever the outcome, and on two initial stores that
agree on `ks` the computation produces the same outcome, the same final
counter, and final stores that again agree on `ks`. -/
def LocalOn (ks : List String) {α : Type} (m : M α) : Prop :=
  (∀ s c k, k ∉ ks → ((m s c).2.1) k = s k) ∧
  (∀ s₁ s₂ c, (∀ k ∈ ks, s₁ k = s₂ k) →
    (m s₁ c).1 = (m s₂ c).1 ∧ (m s₁ c).2.2 = (m s₂ c).2.2 ∧
    ∀ k ∈ ks, ((m s₁ c).2.1) k = ((m s₂ c).2.1) k)

theorem LocalOn.pure {ks : List String} {α : Type} (a : α) : LocalOn ks (M.pure a) := by
  constructor
  · intro s c k hk; rfl
  · intro s₁ s₂ c hag
    exact ⟨rfl, rfl, fun k hk => hag k hk⟩

theorem LocalOn.throw {ks : List String} {α : Type} (e : Err) :
    LocalOn ks (M.throw e : M α) := by
  constructor
  · intro s c k hk; rfl
  · intro s₁ s₂ c hag
    exact ⟨rfl, rfl, fun k hk => hag k hk⟩

theorem LocalOn.bind {ks : List String} {α β : Type} {m : M α} {f : α → M β}
    (hm : LocalOn ks m) (hf : ∀ a, LocalOn ks (f a)) : LocalOn ks (M.bind m f) := by
  obtain ⟨hmF, hmR⟩ := hm
  constructor
  · intro s c k hk
    unfold M.bind
    rcases hm2 : m s c with ⟨r, s1, c1⟩
    have h1 : s1 k = s k := by
      have := hmF s c k hk
      rw [hm2] at this
      exact this
    cases r with
    | ok a => exact ((hf a).1 s1 c1 k hk).trans h1
    | error e => exact h1
  · intro s₁ s₂ c hag
    obtain ⟨ho, hc, hs⟩ := hmR s₁ s₂ c hag
    unfold M.bind
    rcases e1 : m s₁ c with ⟨r1, t1, d1⟩
    rcases e2 : m s₂ c with ⟨r2, t2, d2⟩
    rw [e1, e2] at ho hc hs
    simp only [] at ho hc hs
    subst ho
    subst hc
    cases r1 with
    | ok a => exact (hf a).2 t1 t2 d1 hs
    | error e => exact ⟨rfl, rfl, hs⟩

theorem LocalOn.ite {ks : List String} {α : Type} (P : Prop) [Decidable P] {m1 m2 : M α}
    (h1 : LocalOn ks m1) (h2 : LocalOn ks m2) : LocalOn ks (if P then m1 else m2) := by
  by_cases h : P
  · rw [if_pos h]; exact h1
  · rw [if_neg h]; exact h2

theorem localOn_dbOp {ks : List String} {α : Type} (env : Env) (g : Store → α × Store)
    (hgF : ∀ s k, k ∉ ks → ((g s).2) k = s k)
    (hgV : ∀ s₁ s₂, (∀ k ∈ ks, s₁ k = s₂ k) → (g s₁).1 = (g s₂).1)
    (hgS : ∀ s₁ s₂, (∀ k ∈ ks, s₁ k = s₂ k) → ∀ k ∈ ks, ((g s₁).2) k = ((g s₂).2) k) :
    LocalOn ks (dbOp env g) := by
  constructor
  · intro s c k hk
    unfold dbOp
    by_cases h0 : env.failAt c = true
    · rw [if_pos h0]
    · rw [if_neg h0]
      exact hgF s k hk
  · intro s₁ s₂ c hag
    unfold dbOp
    by_cases h0 : env.failAt c = true
    · simp only [if_pos h0]
      exact ⟨trivial, trivial, fun k hk => hag k hk⟩
    · simp only [if_neg h0]
      refine ⟨?_, ?_, hgS s₁ s₂ hag⟩
      · exact congrArg Except.ok (hgV s₁ s₂ hag)
      · trivial

theorem LocalOn.mono {ks ks' : List String} {α : Type} {m : M α}
    (hsub : ∀ k, k ∈ ks → k ∈ ks') (h : LocalOn ks m) : LocalOn ks' m := by
  obtain ⟨hF, hR⟩ := h
  constructor
  · intro s c k hk
    exact hF s c k (fun hm => hk (hsub k hm))
  · intro s₁ s₂ c hag
    obtain ⟨ho, hc, hs⟩ := hR s₁ s₂ c (fun k hk => hag k (hsub k hk))
    refine ⟨ho, hc, ?_⟩
    intro k hk
    by_cases hm : k ∈ ks
    · exact hs k hm
    · rw [hF s₁ c k hm, hF s₂ c k hm]
      exact hag k hk

theorem localOn_dbFindOne (env : Env) (source : String) (ks : List String)
    (hs : source ∈ ks) : LocalOn ks (dbFindOne env source) := by
  unfold dbFindOne
  refine localOn_dbOp env _ ?_ ?_ ?_
  · intro s k hk; rfl
  · intro s₁ s₂ hag; exact hag source hs
  · intro s₁ s₂ hag k hk; exact hag k hk

theorem localOn_dbUpsert (env : Env) (source : String) (content : DocContent)
    (ks : List String) (hs : source ∈ ks) : LocalOn ks (dbUpsert env source content) := by
  unfold dbUpsert
  refine localOn_dbOp env _ ?_ ?_ ?_
  · intro s k hk
    have hne : k ≠ source := fun h => hk (h ▸ hs)
    simp [setKey, hne]
  · intro s₁ s₂ hag; rfl
  · intro s₁ s₂ hag k hk
    by_cases hks : k = source
    · simp [setKey, hks]
    · simp only [setKey, if_neg hks]
      exact hag k hk

theorem localOn_flushBatch (env : Env) (rootUrl source : String) (batch : List PageRecord)
    (ks : List String) (hs : source ∈ ks) :
    LocalOn ks (flushBatch env rootUrl source batch) := by
  unfold flushBatch
  exact LocalOn.bind (localOn_dbFindOne env source ks hs)
    (fun doc => localOn_dbUpsert env source _ ks hs)

theorem localOn_flushFinal (env : Env) (rootUrl source : String) (batch : List PageRecord)
    (ks : List String) (hs : source ∈ ks) :
    LocalOn ks (flushFinal env rootUrl source batch) := by
  unfold flushFinal
  refine LocalOn.bind (localOn_dbFindOne env source ks hs) ?_
  intro doc
  cases doc with
  | none => exact localOn_dbUpsert env source _ ks hs
  | some d =>
    obtain ⟨dc, dts⟩ := d
    cases dc with
    | site sd => exact localOn_dbUpsert env source _ ks hs
    | other raw => exact LocalOn.throw _

theorem localOn_processPage (env : Env) (rootUrl source : String)
    (maxPages batchSize : Nat) (st : CrawlSt) (url : String) (rest : List String)
    (page : PageData) (ks : List String) (hs : source ∈ ks) :
    LocalOn ks (processPage env rootUrl source maxPages batchSize st url rest page) := by
  unfold processPage
  refine LocalOn.bind ?_ (fun tb => LocalOn.pure _)
  refine LocalOn.ite _ ?_ (LocalOn.pure _)
  refine LocalOn.ite _ ?_ (LocalOn.pure _)
  exact LocalOn.bind (localOn_flushBatch env rootUrl source _ ks hs)
    (fun _ => LocalOn.pure _)

theorem localOn_crawlStep (env : Env) (rootUrl source : String)
    (maxPages batchSize : Nat) (st : CrawlSt) (url : String) (rest : List String)
    (ks : List String) (hs : source ∈ ks) :
    LocalOn ks (crawlStep env rootUrl source maxPages batchSize st url rest) := by
  unfold crawlStep
  refine LocalOn.ite _ (LocalOn.pure _) ?_
  cases hf : (fetchWithRetry env.web url).1 with
  | none => exact LocalOn.pure _
  | some page =>
    exact localOn_processPage env rootUrl source maxPages batchSize st url rest page ks hs

theorem localOn_crawlLoop (env : Env) (rootUrl source : String)
    (maxPages batchSize : Nat) (ks : List String) (hs : source ∈ ks) :
    ∀ (fuel : Nat) (st : CrawlSt),
    LocalOn ks (crawlLoop env rootUrl source maxPages batchSize fuel st) := by
  intro fuel
  induction fuel with
  | zero => intro st; exact LocalOn.pure _
  | succ fuel ih =>
    intro st
    obtain ⟨vis, que, bat, tot⟩ := st
    cases que with
    | nil => exact LocalOn.pure _
    | cons url rest =>
      simp only [crawlLoop]
      refine LocalOn.ite _ ?_ (LocalOn.pure _)
      exact LocalOn.bind
        (localOn_crawlStep env rootUrl source maxPages batchSize _ url rest ks hs)
        (fun st1 => ih st1)

theorem localOn_scrapeAndSaveSite (env : Env) (rootUrl source : String)
    (maxPages batchSize fuel : Nat) (ks : List String) (hs : source ∈ ks) :
    LocalOn ks (scrapeAndSaveSite env rootUrl source maxPages batchSize fuel) := by
  unfold scrapeAndSaveSite
  refine LocalOn.bind (localOn_dbUpsert env source _ ks hs) (fun _ => ?_)
  refine LocalOn.bind
    (localOn_crawlLoop env rootUrl source maxPages batchSize ks hs fuel _) (fun st2 => ?_)
  exact LocalOn.ite _ (LocalOn.pure _) (localOn_flushFinal env rootUrl source _ ks hs)

theorem localOn_swap (env : Env) :
    LocalOn refreshKeys (dbOp env (fun st => ((), swapEffect env.now st))) := by
  refine localOn_dbOp env _ ?_ ?_ ?_
  · intro s k hk
    simp only [refreshKeys, List.mem_cons, List.mem_singleton, not_or] at hk
    obtain ⟨hk1, hk2, hk3, hk4⟩ := hk
    unfold swapEffect delStaging setKey
    cases s "handbook_staging" <;> cases s "direction_staging" <;>
      simp [hk1, hk2, hk3, hk4]
  · intro s₁ s₂ hag; rfl
  · intro s₁ s₂ hag k hk
    have e1 : s₁ "handbook_staging" = s₂ "handbook_staging" :=
      hag _ (by simp [refreshKeys])
    have e2 : s₁ "direction_staging" = s₂ "direction_staging" :=
      hag _ (by simp [refreshKeys])
    have e3 : s₁ "handbook" = s₂ "handbook" := hag _ (by simp [refreshKeys])
    have e4 : s₁ "direction" = s₂ "direction" := hag _ (by simp [refreshKeys])
    simp only [refreshKeys, List.mem_cons, List.not_mem_nil, or_false] at hk
    unfold swapEffect delStaging setKey
    rw [e1, e2]
    rcases hk with rfl | rfl | rfl | rfl <;>
      cases s₂ "handbook_staging" <;> cases s₂ "direction_staging" <;>
      simp [e3, e4]

theorem localOn_cleanup (env : Env) :
    LocalOn refreshKeys (dbOp env (fun st => ((), delStaging st))) := by
  refine localOn_dbOp env _ ?_ ?_ ?_
  · intro s k hk
    simp only [refreshKeys, List.mem_cons, List.mem_singleton, not_or] at hk
    obtain ⟨hk1, hk2, hk3, hk4⟩ := hk
    simp [delStaging, hk3, hk4]
  · intro s₁ s₂ hag; rfl
  · intro s₁ s₂ hag k hk
    simp only [refreshKeys, List.mem_cons, List.not_mem_nil, or_false] at hk
    unfold delStaging
    rcases hk with rfl | rfl | rfl | rfl <;>
      simp [hag _ (by simp [refreshKeys] : ("handbook" : String) ∈ refreshKeys),
        hag _ (by simp [refreshKeys] : ("direction" : String) ∈ refreshKeys)]

theorem localOn_scrapeBody (env : Env) (fuel : Nat) :
    LocalOn refreshKeys (scrapeBody env fuel) := by
  have hsub1 : ∀ k, k ∈ ["handbook_staging"] → k ∈ refreshKeys := by
    intro k hk
    simp only [List.mem_singleton] at hk
    subst hk
    simp [refreshKeys]
  have hsub2 : ∀ k, k ∈ ["direction_staging"] → k ∈ refreshKeys := by
    intro k hk
    simp only [List.mem_singleton] at hk
    subst hk
    simp [refreshKeys]
  unfold scrapeBody
  refine LocalOn.bind
    (LocalOn.mono hsub1
      (localOn_scrapeAndSaveSite env handbookUrl "handbook_staging" 50 10 fuel
        ["handbook_staging"] (by simp)))
    (fun _ => ?_)
  refine LocalOn.bind
    (LocalOn.mono hsub2
      (localOn_scrapeAndSaveSite env directionUrl "direction_staging" 50 10 fuel
        ["direction_staging"] (by simp)))
    (fun _ => ?_)
  exact localOn_swap env

theorem localOn_scrapeGitLabData (env : Env) (fuel : Nat) :
    LocalOn refreshKeys (scrapeGitLabData env fuel) := by
  obtain ⟨hF, hR⟩ := localOn_scrapeBody env fuel
  obtain ⟨hcF, hcR⟩ := localOn_cleanup env
  constructor
  · intro s c k hk
    unfold scrapeGitLabData
    rcases hb : scrapeBody env fuel s c with ⟨rb, sb, cb⟩
    have h1 : sb k = s k := by
      have := hF s c k hk
      rw [hb] at this
      exact this
    cases rb with
    | ok u => exact h1
    | error e => exact (hcF sb cb k hk).trans h1
  · intro s₁ s₂ c hag
    unfold scrapeGitLabData
    obtain ⟨ho, hc, hs⟩ := hR s₁ s₂ c hag
    rcases b1 : scrapeBody env fuel s₁ c with ⟨r1, t1, d1⟩
    rcases b2 : scrapeBody env fuel s₂ c with ⟨r2, t2, d2⟩
    rw [b1, b2] at ho hc hs
    simp only [] at ho hc hs
    subst ho
    subst hc
    cases r1 with
    | ok u => exact ⟨rfl, rfl, fun k hk => hs k hk⟩
    | error e =>
      obtain ⟨ho', hc', hs'⟩ := hcR t1 t2 d1 hs
      exact ⟨rfl, hc', hs'⟩

/-- C10: every execution of a refresh, successful or failed, reads and writes
the store only at the keys 'handbook', 'direction', 'handbook_staging' and
'direction_staging': its result, final status and final operation counter are
the same on any two stores agreeing on those keys; final stores again agree on
them; and every other key — in particular 'last_conversation' — is returned
exactly as it was. -/
theorem refresh_touches_only_refresh_keys (env : Env) (fuel : Nat) (rs : RefreshStatus)
    (c : Nat) (s₁ s₂ : Store) (k₀ k₁ : String)
    (hag : ∀ k ∈ refreshKeys, s₁ k = s₂ k) (hk0 : k₀ ∉ refreshKeys)
    (hk1 : k₁ ∈ refreshKeys) :
    (backgroundRefresh env fuel rs s₁ c).1 = (backgroundRefresh env fuel rs s₂ c).1 ∧
    (backgroundRefresh env fuel rs s₁ c).2.1 = (backgroundRefresh env fuel rs s₂ c).2.1 ∧
    (backgroundRefresh env fuel rs s₁ c).2.2.2 = (backgroundRefresh env fuel rs s₂ c).2.2.2 ∧
    (backgroundRefresh env fuel rs s₁ c).2.2.1 k₁ =
      (backgroundRefresh env fuel rs s₂ c).2.2.1 k₁ ∧
    (backgroundRefresh env fuel rs s₁ c).2.2.1 k₀ = s₁ k₀ ∧
    (backgroundRefresh env fuel rs s₁ c).2.2.1 "last_conversation" =
      s₁ "last_conversation" := by
  obtain ⟨hF, hR⟩ := localOn_scrapeGitLabData env fuel
  unfold backgroundRefresh
  by_cases hrs : rs.isRefreshing = true
  · simp only [if_pos hrs]
    exact ⟨trivial, trivial, trivial, hag k₁ hk1, trivial, trivial⟩
  · simp only [if_neg hrs]
    obtain ⟨ho, hc, hs⟩ := hR s₁ s₂ c hag
    rcases e1 : scrapeGitLabData env fuel s₁ c with ⟨r1, t1, d1⟩
    rcases e2 : scrapeGitLabData env fuel s₂ c with ⟨r2, t2, d2⟩
    rw [e1, e2] at ho hc hs
    simp only [] at ho hc hs
    subst ho
    subst hc
    have hfr0 : t1 k₀ = s₁ k₀ := by
      have := hF s₁ c k₀ hk0
      rw [e1] at this
      exact this
    have hfrL : t1 "last_conversation" = s₁ "last_conversation" := by
      have := hF s₁ c "last_conversation" (by decide)
      rw [e1] at this
      exact this
    cases r1 with
    | ok u => exact ⟨rfl, rfl, rfl, hs k₁ hk1, hfr0, hfrL⟩
    | error e => exact ⟨rfl, rfl, rfl, hs k₁ hk1, hfr0, hfrL⟩

/-- A store agreeing with `storeWithData` on the four refresh keys but holding
a different 'last_conversation' document. -/
def storeWithData2 : Store :=
  fun k =>
    if k = "handbook" then some ⟨DocContent.site ⟨"", handbookUrl, [oldPage]⟩, 5⟩
    else if k = "last_conversation" then some ⟨DocContent.other "another conversation", 9⟩
    else none

/-- Witness for `refresh_touches_only_refresh_keys` at concrete stores that
differ only in their 'last_conversation' documents. -/
theorem refresh_touches_only_refresh_keys_witness :
    (backgroundRefresh envAllTransient 5 rs0 storeWithData 0).1 =
      (backgroundRefresh envAllTransient 5 rs0 storeWithData2 0).1 ∧
    (backgroundRefresh envAllTransient 5 rs0 storeWithData 0).2.1 =
      (backgroundRefresh envAllTransient 5 rs0 storeWithData2 0).2.1 ∧
    (backgroundRefresh envAllTransient 5 rs0 storeWithData 0).2.2.2 =
      (backgroundRefresh envAllTransient 5 rs0 storeWithData2 0).2.2.2 ∧
    (backgroundRefresh envAllTransient 5 rs0 storeWithData 0).2.2.1 "handbook" =
      (backgroundRefresh envAllTransient 5 rs0 storeWithData2 0).2.2.1 "handbook" ∧
    (backgroundRefresh envAllTransient 5 rs0 storeWithData 0).2.2.1 "last_conversation" =
      storeWithData "last_conversation" ∧
    (backgroundRefresh envAllTransient 5 rs0 storeWithData 0).2.2.1 "last_conversation" =
      storeWithData "last_conversation" :=
  refresh_touches_only_refresh_keys envAllTransient 5 rs0 0 storeWithData storeWithData2
    "last_conversation" "handbook" (by decide) (by decide) (by decide)
